import Mathlib

/-!
Verification of the onboarding service's job orchestration and category
discovery engine, embedded shallowly from the JavaScript source.

The embedding covers:
* `lib/syncStatus.js` — the job state store (`setJobState` / `getJobState`);
* `routes/reprocess.js` — the reprocess route wrapper, the background
  completion writes, and both variants of the stop endpoint;
* `lib/reprocess-products.js` — an unimplemented stub in the source; the
  checkpointed runner loop it is documented to contain is modelled
  separately from the design document;
* the daily soft-category agent — candidate filtering, the LLM selection
  path, the deterministic fallback scorer, and the per-user merge;
* the onboarding route — the re-onboarding default merge, the trial
  timestamp gating, and the API-key control flow.

State is passed explicitly; JavaScript objects become structures, absent
fields become `Option`, thrown exceptions become explicit error results,
and timestamps become rational milliseconds.
-/

namespace Onboarding

/-! ## Job state store (lib/syncStatus.js) -/

/-- The five job lifecycle states stored in the `sync_status` collection. -/
inductive JobState where
  | idle
  | running
  | done
  | error
  | stopped
deriving DecidableEq, Repr

/-- One record of the `sync_status` collection, as written by `setJobState`:
`{dbName, state, progress, done, total}` (the timestamp field is immaterial
to the claims and omitted). -/
structure JobRecord where
  state : JobState
  progress : Nat
  done : Nat
  total : Nat
deriving DecidableEq, Repr

/-- The `sync_status` persistence, one optional record per database name. -/
def JobStore := String → Option JobRecord

/-- The store with no record for any database name. -/
def emptyJobStore : JobStore := fun _ => none

/-- Embeds `setJobState(dbName, state, progress = 0, done = 0, total = 0)`:
an upsert that overwrites the whole record for `dbName`. The JavaScript
default arguments are reproduced by `setJobStateDefault` below. -/
def setJobState (store : JobStore) (dbName : String) (state : JobState)
    (progress : Nat) (done : Nat) (total : Nat) : JobStore :=
  fun k => if k = dbName then some ⟨state, progress, done, total⟩ else store k

/-- `setJobState` called with only the first two arguments, as done by
`routes/reprocess.js` and `routes/onboarding.js`: progress, done and total
all default to 0. -/
def setJobStateDefault (store : JobStore) (dbName : String) (state : JobState) : JobStore :=
  setJobState store dbName state 0 0 0

/-- Embeds `getJobState(dbName)`: `findOne({dbName})` followed by
`status || { state: "idle", progress: 0, done: 0, total: 0 }`. -/
def getJobState (store : JobStore) (dbName : String) : JobRecord :=
  (store dbName).getD ⟨JobState.idle, 0, 0, 0⟩

/-! ## Cancellation sentinel and stop endpoints (routes/reprocess.js) -/

/-- The shared world touched by the stop handlers: the set of lock files
(`/tmp/reprocessing_DBNAME.lock`, present = run may continue) and the job
state store. -/
structure StopWorld where
  locks : String → Bool
  jobs : JobStore

/-- Responses of the stop endpoints, by message. -/
inductive StopResponse where
  | stopSent
  | alreadyStopped
deriving DecidableEq, Repr

/-- Embeds the authenticated stop endpoint of `routes/reprocess.js`:
`fs.access` on the lock file, then `fs.unlink` plus
`setJobState(dbName, "stopped")` when it exists; the ENOENT branch answers
"Process already stopped or finished." with status 200 and no writes. -/
def stopHandler (w : StopWorld) (dbName : String) : StopWorld × StopResponse :=
  if w.locks dbName then
    (⟨fun k => if k = dbName then false else w.locks k,
      setJobStateDefault w.jobs dbName JobState.stopped⟩,
     StopResponse.stopSent)
  else
    (w, StopResponse.alreadyStopped)

/-- Embeds the body-authenticated stop endpoint variant: `fs.unlink`
directly, with the ENOENT catch answering "Process already stopped or
finished."; no job state write on either branch. -/
def stopHandlerLegacy (w : StopWorld) (dbName : String) : StopWorld × StopResponse :=
  if w.locks dbName then
    (⟨fun k => if k = dbName then false else w.locks k, w.jobs⟩,
     StopResponse.stopSent)
  else
    (w, StopResponse.alreadyStopped)

/-! ## Reprocess route wrapper (routes/reprocess.js, lib/reprocess-products.js) -/

/-- The reprocess payload fields relevant to the job claims: the database
name and the work items the run would cover. -/
structure ReprocessPayload where
  dbName : String
  workItems : List String

/-- Embeds `reprocessProducts(payload)` of `lib/reprocess-products.js` as it
stands in the source: the body is a TODO stub that only logs, performs no
job state writes, processes no items, and returns normally. The second
component is the trace of `setJobState` writes it performs (none). -/
def reprocessProducts (_payload : ReprocessPayload) (store : JobStore) :
    JobStore × List JobRecord :=
  (store, [])

/-- Embeds `processReprocessInBackground(payload)`: awaits
`reprocessProducts` and then writes `setJobState(dbName, "done")`; the stub
never throws, so the `setJobState(dbName, "error")` catch branch is
unreachable. Returns the final store and the write trace. -/
def processReprocessInBackground (payload : ReprocessPayload) (store : JobStore) :
    JobStore × List JobRecord :=
  let r := reprocessProducts payload store
  (setJobStateDefault r.1 payload.dbName JobState.done,
   r.2 ++ [⟨JobState.done, 0, 0, 0⟩])

/-- Embeds the `POST /api/reprocess` handler after validation: it writes
`setJobState(dbName, "running")` and starts `processReprocessInBackground`.
Returns the store after the background job finishes, together with the full
trace of job state writes of the run. -/
def reprocessRoute (payload : ReprocessPayload) (store : JobStore) :
    JobStore × List JobRecord :=
  let s1 := setJobStateDefault store payload.dbName JobState.running
  let r := processReprocessInBackground payload s1
  (r.1, ⟨JobState.running, 0, 0, 0⟩ :: r.2)

/-! ## Job runner checkpoint loop, modelled from the design document

The body of `lib/reprocess-products.js` is an explicit TODO stub, so the
checkpointed runner loop that the repository documents (the worker checks
the lock file before each product, reports progress, and exits gracefully
when the lock disappears) exists in the repository only as that stub plus
its callers. The loop is therefore modelled from the design document. -/

/-- Output of one runner invocation: the processed items, the per-item
progress writes, and the single final terminal write. -/
structure RunnerOut (β : Type) where
  processed : List β
  progressWrites : List JobRecord
  finalWrite : JobRecord
deriving Repr

/-- Modelled from the spec: the checkpoint loop of the Job Runner
(`run(resourceKey, workItems, processOne)`), missing from
`lib/reprocess-products.js`. `armed j` is the sentinel presence the runner
observes at checkpoint `j`, the check made before processing item `j`.
While armed it processes items in input order and reports progress; at the
first disarmed checkpoint `i` it stops immediately with
`setState(stopped, currentProgress, i, total)`; after the last item it
writes `setState(done, 100, total, total)`. -/
def runnerGo (armed : Nat → Bool) (process : α → β) (total : Nat) :
    List α → Nat → RunnerOut β
  | [], _ => ⟨[], [], ⟨JobState.done, 100, total, total⟩⟩
  | x :: xs, i =>
    if armed i then
      let r := runnerGo armed process total xs (i + 1)
      ⟨process x :: r.processed,
       ⟨JobState.running, 100 * (i + 1) / total, i + 1, total⟩ :: r.progressWrites,
       r.finalWrite⟩
    else
      ⟨[], [], ⟨JobState.stopped, 100 * i / total, i, total⟩⟩

/-- Modelled from the spec: a full Job Runner invocation. It arms the
sentinel, writes `setState(running, 0, 0, total)`, and enters the
checkpoint loop at item 0. -/
def runJobRunner (armed : Nat → Bool) (process : α → β) (items : List α) :
    RunnerOut β :=
  runnerGo armed process items.length items 0

/-! ## Category discovery engine (daily soft category agent) -/

/-- Metadata of one potential-category observation, as stored under
`credentials.potentialSoftCategories[term]`. Timestamps are rational
milliseconds; absent fields are `none` and defaulted exactly as the
JavaScript does (`data.count || 0`, `data.lastSeen ? ... : now`). -/
structure CatData where
  count : Option ℚ
  firstSeen : Option ℚ
  lastSeen : Option ℚ
  exampleQueries : List String
deriving DecidableEq, Repr

/-- Milliseconds per day, the `1000 * 60 * 60 * 24` divisor. -/
def msPerDay : ℚ := 1000 * 60 * 60 * 24

/-- The scored record built for one candidate term inside
`fallbackCategorySelection`. -/
structure ScoredTerm where
  term : String
  count : ℚ
  lastSeen : ℚ
  firstSeen : ℚ
  recencyScore : ℚ
  persistenceScore : ℚ
  totalScore : ℚ
deriving DecidableEq, Repr

/-- Embeds the score computation of `fallbackCategorySelection` for one
candidate: recency `max(0, 100 - daysSinceLastSeen)`, persistence
`min(100, daysActive * 2)`, total `count*0.5 + recency*0.3 +
persistence*0.2`. -/
def scoreCandidate (now : ℚ) (term : String) (d : CatData) : ScoredTerm :=
  let count := d.count.getD 0
  let lastSeen := d.lastSeen.getD now
  let firstSeen := d.firstSeen.getD now
  let daysSinceLastSeen := (now - lastSeen) / msPerDay
  let recencyScore := max 0 (100 - daysSinceLastSeen)
  let daysActive := (lastSeen - firstSeen) / msPerDay
  let persistenceScore := min 100 (daysActive * 2)
  let totalScore := count * (1/2) + recencyScore * (3/10) + persistenceScore * (1/5)
  ⟨term, count, lastSeen, firstSeen, recencyScore, persistenceScore, totalScore⟩

/-- Stable insertion for a descending sort by `key`: `x` is placed before
the first element whose key it is greater than or equal to, so earlier
input elements stay first among ties. -/
def insertDescBy (key : α → ℚ) (x : α) : List α → List α
  | [] => [x]
  | y :: ys => if key y ≤ key x then x :: y :: ys else y :: insertDescBy key x ys

/-- Stable descending sort by `key`: the unique reordering that is
descending in `key` and keeps ties in input order, which is what the
JavaScript `sort((a, b) => b.totalScore - a.totalScore)` produces (array
sort is stable). -/
def sortDescBy (key : α → ℚ) : List α → List α
  | [] => []
  | x :: xs => insertDescBy key x (sortDescBy key xs)

/-- Embeds `fallbackCategorySelection(potentialCategories,
existingSoftCategories, maxTerms)`: map each entry to its scored record or
null when the term is already an existing soft category, drop the nulls,
sort descending by total score, take the first `maxTerms`, return the
terms. -/
def fallbackCategorySelection (now : ℚ) (potentialCategories : List (String × CatData))
    (existingSoftCategories : List String) (maxTerms : Nat) : List String :=
  let scored := potentialCategories.filterMap fun p =>
    if existingSoftCategories.contains p.1 then none
    else some (scoreCandidate now p.1 p.2)
  ((sortDescBy ScoredTerm.totalScore scored).take maxTerms).map ScoredTerm.term

/-- The fallback scorer as the specification words it, for comparison with
the embedded code: keep the candidates not already in the existing set,
score each with `0.5*count + 0.3*max(0, 100 - daysSince(lastSeen)) +
0.2*min(100, daysBetween(firstSeen, lastSeen)*2)` on the observation's
effective fields, sort descending by score with ties in input order, and
return the first `maxTerms` terms. -/
def specTotalScore (now : ℚ) (d : CatData) : ℚ :=
  (1/2) * d.count.getD 0 +
    (3/10) * max 0 (100 - (now - d.lastSeen.getD now) / msPerDay) +
    (1/5) * min 100 ((d.lastSeen.getD now - d.firstSeen.getD now) / msPerDay * 2)

/-- The specification-side fallback selection built from `specTotalScore`;
compared against `fallbackCategorySelection` in claim C2. -/
def specFallbackSelection (now : ℚ) (potentialCategories : List (String × CatData))
    (existingSoftCategories : List String) (maxTerms : Nat) : List String :=
  let candidates := potentialCategories.filter fun p =>
    !(existingSoftCategories.contains p.1)
  let scored := candidates.map fun p => (p.1, specTotalScore now p.2)
  ((sortDescBy Prod.snd scored).take maxTerms).map Prod.fst

/-- Embeds `analyzePotentialCategories(potentialCategories,
existingSoftCategories, maxTerms)`. When the AI client is unavailable the
function falls back to the deterministic scorer; otherwise it calls the
oracle: `oracle = some ts` models a successful call whose
`parsed.selectedTerms` is `ts`, returned as-is without any filtering
against the existing set, and `oracle = none` models a thrown error, whose
catch branch falls back to the deterministic scorer. -/
def analyzePotentialCategories (aiAvailable : Bool) (oracle : Option (List String))
    (now : ℚ) (potentialCategories : List (String × CatData))
    (existingSoftCategories : List String) (maxTerms : Nat) : List String :=
  if !aiAvailable then
    fallbackCategorySelection now potentialCategories existingSoftCategories maxTerms
  else
    match oracle with
    | some selectedTerms => selectedTerms
    | none => fallbackCategorySelection now potentialCategories existingSoftCategories maxTerms

/-- A user document as read by the daily agent: database name plus the
credential fields it consumes. `none` models an absent field, defaulted
with `|| []` where the code does so. -/
structure UserDoc where
  dbName : String
  potentialSoftCategories : Option (List (String × CatData))
  softCategories : Option (List String)
  categories : Option (List String)
  typeList : Option (List String)
deriving DecidableEq, Repr

/-- The per-user outcome of `processSingleUser`. The success case records
the selected terms and the reprocess payload's `softCategories`
(`[...existingSoftCategories, ...selectedTerms]`) and
`incrementalSoftCategories` (the selected terms), plus the previous and new
counts. -/
inductive UserResult where
  | skipped (reason : String)
  | success (dbName : String) (selectedTerms : List String)
      (payloadSoftCategories : List String)
      (incrementalSoftCategories : List String)
      (previousCount newCount : Nat)
deriving DecidableEq, Repr

/-- The merged soft-category list a successful run hands to the reprocess
payload; `[]` for a skipped resource. -/
def UserResult.mergedSoftCategories : UserResult → List String
  | .success _ _ payloadSoft _ _ _ => payloadSoft
  | _ => []

/-- Embeds `processSingleUser(user)`: skip when
`credentials.potentialSoftCategories` is absent; filter out entries whose
term is already an existing soft category; skip when nothing new remains;
select via `analyzePotentialCategories`; skip when the selection is empty;
otherwise build the incremental reprocess payload, whose `softCategories`
is the concatenation `[...existingSoftCategories, ...selectedTerms]`. The
background `reprocessProducts` call is fire-and-forget of an unimplemented
stub, so the error branch is unreachable. -/
def processSingleUser (aiAvailable : Bool) (oracle : Option (List String))
    (now : ℚ) (user : UserDoc) : UserResult :=
  match user.potentialSoftCategories with
  | none => .skipped "no_potential_categories"
  | some potentialCategories =>
    let existingSoftCategories := user.softCategories.getD []
    let filteredPotential := potentialCategories.filter fun p =>
      !(existingSoftCategories.contains p.1)
    if filteredPotential.length = 0 then
      .skipped "no_new_terms"
    else
      let selectedTerms :=
        analyzePotentialCategories aiAvailable oracle now filteredPotential
          existingSoftCategories 5
      if selectedTerms.length = 0 then
        .skipped "no_suitable_terms"
      else
        .success user.dbName selectedTerms
          (existingSoftCategories ++ selectedTerms) selectedTerms
          existingSoftCategories.length
          (existingSoftCategories.length + selectedTerms.length)

/-- Embeds `runDailySoftCategoryAgent()`: when the AI client is not
configured the agent logs and returns before touching any user — modelled
as `none`; otherwise it processes the queried users strictly in order and
returns their per-user results. `oracle u` is the oracle outcome for user
`u`. -/
def runDailySoftCategoryAgent (aiAvailable : Bool)
    (oracle : UserDoc → Option (List String)) (now : ℚ)
    (users : List UserDoc) : Option (List UserResult) :=
  if !aiAvailable then none
  else some (users.map fun u => processSingleUser aiAvailable (oracle u) now u)

/-- An observation with every metadata field absent; the code then defaults
count to 0 and both timestamps to now. -/
def catD0 : CatData := ⟨none, none, none, []⟩

/-- A concrete agent user: one potential category "new1" and the existing
soft category "existing1". -/
def user1 : UserDoc :=
  ⟨"db1", some [("new1", catD0)], some ["existing1"], some [], some []⟩

/-- Candidate A of the specification's scorer example, taking now to be day
100: count 10, firstSeen 10 days ago, lastSeen 0 days ago. -/
def candA : CatData := ⟨some 10, some (90 * msPerDay), some (100 * msPerDay), []⟩

/-- Candidate B of the specification's scorer example, taking now to be day
100: count 3, firstSeen 3 days ago, lastSeen 3 days ago. -/
def candB : CatData := ⟨some 3, some (97 * msPerDay), some (97 * msPerDay), []⟩

/-! ## Re-onboarding merge (API-key onboarding route) -/

/-- The stored configuration fields the re-onboarding merge reads from the
user record found via API key; `none` models an absent field. -/
structure StoredConfig where
  syncMode : Option String
  categories : Option (List String)
  typeList : Option (List String)
  softCategories : Option (List String)
  context : Option String
  explain : Option Bool
deriving DecidableEq, Repr

/-- The request payload fields of the same merge; `none` models a field
absent from the JSON body. -/
structure BodyData where
  syncMode : Option String
  categories : Option (List String)
  typeList : Option (List String)
  softCategories : Option (List String)
  context : Option String
  explain : Option Bool
deriving DecidableEq, Repr

/-- The resolved configuration after the re-onboarding merge. -/
structure MergedConfig where
  syncMode : String
  categories : List String
  typeList : List String
  softCategories : List String
  context : Option String
  explain : Option Bool
deriving DecidableEq, Repr

/-- JavaScript `a || d` for an optional string `a`: an absent field and the
empty string are falsy and fall through to `d`. -/
def strOr (o : Option String) (d : String) : String :=
  match o with
  | some s => if s = "" then d else s
  | none => d

/-- JavaScript `a || b` where both sides are optional strings and the result
may stay undefined. -/
def strOrOpt (a b : Option String) : Option String :=
  match a with
  | some s => if s = "" then b else some s
  | none => b

/-- Embeds the re-onboarding branch of the API-key onboarding route
(`isReOnboarding && existingUser`): each field is
`bodyData.field || storedField || default` — so a payload string overrides
only when truthy, a payload array (always truthy in JavaScript, even when
empty) always replaces, and `explain` overrides whenever it is not
undefined (`bodyData.explain !== undefined ? bodyData.explain :
existingUser.explain`). -/
def mergeReOnboarding (stored : StoredConfig) (body : BodyData) : MergedConfig :=
  { syncMode := strOr body.syncMode (strOr stored.syncMode "full")
    categories := body.categories.getD (stored.categories.getD [])
    typeList := body.typeList.getD (stored.typeList.getD [])
    softCategories := body.softCategories.getD (stored.softCategories.getD [])
    context := strOrOpt body.context stored.context
    explain :=
      match body.explain with
      | some b => some b
      | none => stored.explain }

/-- The stored configuration of the re-onboarding scenario:
`{categories: ["a", "b"], syncMode: "full"}`. -/
def stored0 : StoredConfig := ⟨some "full", some ["a", "b"], some [], some [], none, none⟩

/-- The scenario payload `{syncMode: "image"}`. -/
def bodyImage : BodyData := ⟨some "image", none, none, none, none, none⟩

/-- A payload whose `syncMode` is present but holds the empty string. -/
def bodyEmptySync : BodyData := ⟨some "", none, none, none, none, none⟩

/-! ## Onboarding upsert and the trial marker -/

/-- The user-record fields the onboarding upsert touches. Timestamps are
rational milliseconds. -/
structure UserRecord where
  onboardingComplete : Bool
  trialStartedAt : Option ℚ
  trialStatus : Option String
  updatedAt : ℚ
deriving DecidableEq, Repr

/-- Embeds the trial gating of both onboarding routes:
`isFirstTimeOnboarding = !existingUser?.onboardingComplete`; the `$set`
update document always carries `onboardingComplete: true` and `updatedAt`,
and carries `trialStartedAt`/`trialStatus` only on first-time onboarding —
a `$set` upsert leaves fields outside the update document untouched, so
otherwise the stored values survive. -/
def applyOnboardingUpsert (existing : Option UserRecord) (now : ℚ) : UserRecord :=
  let isFirstTimeOnboarding :=
    !(match existing with
      | some u => u.onboardingComplete
      | none => false)
  { onboardingComplete := true
    updatedAt := now
    trialStartedAt :=
      if isFirstTimeOnboarding then some now
      else existing.bind fun u => u.trialStartedAt
    trialStatus :=
      if isFirstTimeOnboarding then some "active"
      else existing.bind fun u => u.trialStatus }

/-! ## API-key onboarding handler control flow -/

/-- Observable side effects of the API-key onboarding handler, in order. -/
inductive OnbEffect where
  | userLookup
  | userUpsert
  | indexCreation
  | jobWrite (state : JobState)
  | syncRun
deriving DecidableEq, Repr

/-- The API-key onboarding request, reduced to the branch conditions the
handler tests: presence of an API key (header or query), presence of the
required fields, platform and credential validity, whether the API-key
lookup found a user, and whether the sync pipeline succeeds. -/
structure OnbRequest where
  hasApiKey : Bool
  userFoundByKey : Bool
  dbNamePresent : Bool
  emailPresent : Bool
  platformValid : Bool
  credsValid : Bool
  syncOk : Bool
deriving DecidableEq, Repr

/-- Embeds the control flow of the API-key onboarding route. `apiKey` is
declared `const`; after the validations and the find-by-email fallback the
handler runs `if (!apiKey) { apiKey = existingUser?.apiKey ||
generateApiKey(); ... }` — when no API key was supplied this assignment to
a const binding throws a TypeError, which the outer catch turns into HTTP
500 ("Something went wrong") with no further effect: in particular the user
upsert and every job-state write sit after the throwing statement. Returns
the HTTP status and the effect trace. -/
def onboardingApiKeyHandler (req : OnbRequest) : Nat × List OnbEffect :=
  let pre : List OnbEffect := if req.hasApiKey then [OnbEffect.userLookup] else []
  if !req.dbNamePresent then (400, pre)
  else if !req.emailPresent then (400, pre)
  else if !req.platformValid then (400, pre)
  else if !req.credsValid then (401, pre)
  else
    let pre2 := pre ++
      (if req.hasApiKey && req.userFoundByKey then [] else [OnbEffect.userLookup])
    if !req.hasApiKey then
      (500, pre2)
    else if req.syncOk then
      (200, pre2 ++ [OnbEffect.userUpsert, OnbEffect.indexCreation,
        OnbEffect.jobWrite JobState.running, OnbEffect.syncRun,
        OnbEffect.jobWrite JobState.done])
    else
      (500, pre2 ++ [OnbEffect.userUpsert, OnbEffect.indexCreation,
        OnbEffect.jobWrite JobState.running, OnbEffect.syncRun,
        OnbEffect.jobWrite JobState.error])

end Onboarding

namespace Onboarding

/-- Claim C7: for every resource key with no stored job record, `getJobState`
returns the synthesized default `{state: idle, progress: 0, done: 0, total: 0}`
and never surfaces a not-found error: absence of a record is a valid idle
state. -/
theorem C7_getState_default (store : JobStore) (dbName : String)
    (h : store dbName = none) :
    getJobState store dbName = ⟨JobState.idle, 0, 0, 0⟩ := by
  simp [getJobState, h]

/-- Witness for C7 at the empty store and a concrete key. -/
theorem C7_getState_default_witness :
    emptyJobStore "shop1" = none ∧
      getJobState emptyJobStore "shop1" = ⟨JobState.idle, 0, 0, 0⟩ :=
  ⟨rfl, C7_getState_default emptyJobStore "shop1" rfl⟩

/-- Claim C6: requesting stop is idempotent on both stop endpoints. When the
lock marker is absent — in particular after a previous stop or a finished
run — the request succeeds with the "already stopped" acknowledgement and
never errors, and calling stop twice in a row always has the second call
answer "already stopped". -/
theorem C6_stop_idempotent (w : StopWorld) (dbName : String) :
    (w.locks dbName = false →
      stopHandler w dbName = (w, StopResponse.alreadyStopped) ∧
      stopHandlerLegacy w dbName = (w, StopResponse.alreadyStopped)) ∧
    (stopHandler (stopHandler w dbName).1 dbName).2 = StopResponse.alreadyStopped ∧
    (stopHandlerLegacy (stopHandlerLegacy w dbName).1 dbName).2 =
      StopResponse.alreadyStopped := by
  refine ⟨fun h => ?_, ?_, ?_⟩
  · constructor <;> simp [stopHandler, stopHandlerLegacy, h]
  · by_cases h : w.locks dbName <;> simp [stopHandler, h]
  · by_cases h : w.locks dbName <;> simp [stopHandlerLegacy, h]

/-- Witness for C6: a world whose lock for the key is absent. -/
theorem C6_stop_idempotent_witness :
    (StopWorld.mk (fun _ => false) emptyJobStore).locks "shop1" = false ∧
      stopHandler ⟨fun _ => false, emptyJobStore⟩ "shop1" =
        (⟨fun _ => false, emptyJobStore⟩, StopResponse.alreadyStopped) :=
  ⟨rfl, ((C6_stop_idempotent ⟨fun _ => false, emptyJobStore⟩ "shop1").1 rfl).1⟩

/-- Claim C4, evaluated at the failing input: a reprocess run for database
"shop1" with three work items. The source's only writes are
`(running, 0, 0, 0)` followed by `(done, 0, 0, 0)`: no write carries
`total = 3`, and the completion write has progress 0 and done 0 rather than
progress 100 and done = total = 3, because the route wrapper passes no
counts to `setJobState` and the per-item pipeline is an unimplemented stub
that makes no progress writes — contradicting the repository's own
documentation of progress reporting. -/
theorem C4_reprocess_writes_eval :
    (reprocessRoute ⟨"shop1", ["p1", "p2", "p3"]⟩ emptyJobStore).2 =
      [⟨JobState.running, 0, 0, 0⟩, ⟨JobState.done, 0, 0, 0⟩] ∧
    (reprocessRoute ⟨"shop1", ["p1", "p2", "p3"]⟩ emptyJobStore).1 "shop1" =
      some ⟨JobState.done, 0, 0, 0⟩ ∧
    (∀ w ∈ (reprocessRoute ⟨"shop1", ["p1", "p2", "p3"]⟩ emptyJobStore).2,
      w.total ≠ 3 ∧ ¬(w.state = JobState.done ∧ w.progress = 100)) := by
  refine ⟨rfl, ?_, by decide⟩
  simp [reprocessRoute, processReprocessInBackground, reprocessProducts,
    setJobStateDefault, setJobState]

/-- The loop stops at the first disarmed checkpoint: if all checkpoints
before `i` are armed, checkpoint `n + i` is not, and `i` indexes into the
remaining items, then exactly the first `i` remaining items are processed
and the final write is the stopped record for index `n + i`. -/
theorem runnerGo_stopped (armed : Nat → Bool) (process : α → β) (total : Nat) :
    ∀ (i n : Nat) (xs : List α), i < xs.length →
      (∀ j, j < i → armed (n + j) = true) → armed (n + i) = false →
      (runnerGo armed process total xs n).processed = (xs.take i).map process ∧
      (runnerGo armed process total xs n).finalWrite =
        ⟨JobState.stopped, 100 * (n + i) / total, n + i, total⟩ := by
  intro i
  induction i with
  | zero =>
    intro n xs hlen _ hdis
    match xs with
    | x :: xs =>
      simp only [Nat.add_zero] at hdis
      simp [runnerGo, hdis]
  | succ i ih =>
    intro n xs hlen harm hdis
    match xs with
    | x :: xs =>
      have hx : armed n = true := by simpa using harm 0 (Nat.succ_pos i)
      have hrec :=
        ih (n + 1) xs (by simpa using Nat.lt_of_succ_lt_succ hlen)
          (fun j hj => by
            have := harm (j + 1) (Nat.succ_lt_succ hj)
            simpa [Nat.add_comm, Nat.add_assoc, Nat.add_left_comm] using this)
          (by
            have : n + 1 + i = n + (i + 1) := by omega
            simpa [this] using hdis)
      refine ⟨?_, ?_⟩
      · simp only [runnerGo, hx, if_pos, List.take_succ_cons, List.map_cons]
        exact congrArg (process x :: ·) hrec.1
      · simp only [runnerGo, hx, if_pos]
        have : n + 1 + i = n + (i + 1) := by omega
        simpa [this] using hrec.2

/-- Claim C5 (runner loop modelled from the design document): if the
sentinel is disarmed before the runner reaches checkpoint `i` — all earlier
checkpoints observed it armed, checkpoint `i` observes it gone — then the
run stops at that checkpoint having processed exactly the items before `i`,
its final write has state stopped with done = `i` and total = the number of
work items, and done < total. -/
theorem C5_runner_stops_at_checkpoint (armed : Nat → Bool) (process : α → β)
    (items : List α) (i : Nat) (hi : i < items.length)
    (harm : ∀ j, j < i → armed j = true) (hdis : armed i = false) :
    (runJobRunner armed process items).processed = (items.take i).map process ∧
    (runJobRunner armed process items).finalWrite.state = JobState.stopped ∧
    (runJobRunner armed process items).finalWrite.done = i ∧
    (runJobRunner armed process items).finalWrite.total = items.length ∧
    (runJobRunner armed process items).finalWrite.done <
      (runJobRunner armed process items).finalWrite.total := by
  have h := runnerGo_stopped armed process items.length i 0 items hi
    (fun j hj => by rw [Nat.zero_add]; exact harm j hj)
    (by rw [Nat.zero_add]; exact hdis)
  rw [runJobRunner] at *
  refine ⟨h.1, ?_, ?_, ?_, ?_⟩
  · rw [h.2]
  · rw [h.2]; exact Nat.zero_add i
  · rw [h.2]
  · rw [h.2]; simpa using hi

/-- Witness for C5: four work items, sentinel observed armed at checkpoints
0 and 1 and gone at checkpoint 2; the run processes the first two items and
stops with done = 2 out of total = 4. -/
theorem C5_runner_stops_at_checkpoint_witness :
    (runJobRunner (fun j => decide (j < 2)) (fun s => s) ["a", "b", "c", "d"]).processed
        = ["a", "b"] ∧
      (runJobRunner (fun j => decide (j < 2)) (fun s => s)
          ["a", "b", "c", "d"]).finalWrite.state = JobState.stopped ∧
      (runJobRunner (fun j => decide (j < 2)) (fun s => s)
          ["a", "b", "c", "d"]).finalWrite.done = 2 ∧
      (runJobRunner (fun j => decide (j < 2)) (fun s => s)
          ["a", "b", "c", "d"]).finalWrite.total = 4 ∧
      (runJobRunner (fun j => decide (j < 2)) (fun s => s)
          ["a", "b", "c", "d"]).finalWrite.done <
        (runJobRunner (fun j => decide (j < 2)) (fun s => s)
          ["a", "b", "c", "d"]).finalWrite.total := by
  have h := C5_runner_stops_at_checkpoint (fun j => decide (j < 2)) (fun s : String => s)
    ["a", "b", "c", "d"] 2 (by decide) (fun j hj => decide_eq_true hj) (by decide)
  simpa using h

/-! Helper lemmas for the discovery-engine claims. -/

/-- Mapping to `none` or `some (f a)` by a test and dropping the nulls is
the same as filtering by the negated test and mapping `f`. -/
lemma filterMap_if_eq_map_filter (p : α → Bool) (f : α → β) :
    ∀ l : List α, (l.filterMap fun a => if p a then none else some (f a)) =
      (l.filter fun a => !(p a)).map f := by
  intro l
  induction l with
  | nil => rfl
  | cons a l ih => cases h : p a <;> simp [List.filterMap_cons, List.filter_cons, h, ih]

/-- `insertDescBy` commutes with a map that preserves the sort key. -/
lemma insertDescBy_map (h : α → β) (k₁ : α → ℚ) (k₂ : β → ℚ)
    (hk : ∀ a, k₂ (h a) = k₁ a) (x : α) :
    ∀ l : List α, insertDescBy k₂ (h x) (l.map h) = (insertDescBy k₁ x l).map h := by
  intro l
  induction l with
  | nil => rfl
  | cons y ys ih =>
    simp only [List.map_cons, insertDescBy, hk]
    by_cases hc : k₁ y ≤ k₁ x
    · simp [hc]
    · simp [hc, ih]

/-- `sortDescBy` commutes with a map that preserves the sort key. -/
lemma sortDescBy_map (h : α → β) (k₁ : α → ℚ) (k₂ : β → ℚ)
    (hk : ∀ a, k₂ (h a) = k₁ a) :
    ∀ l : List α, sortDescBy k₂ (l.map h) = (sortDescBy k₁ l).map h := by
  intro l
  induction l with
  | nil => rfl
  | cons y ys ih =>
    simp only [List.map_cons, sortDescBy, ih]
    exact insertDescBy_map h k₁ k₂ hk y _

/-- The specification formula computes exactly the embedded code's total
score. -/
lemma specTotalScore_eq (now : ℚ) (t : String) (d : CatData) :
    specTotalScore now d = (scoreCandidate now t d).totalScore := by
  simp [specTotalScore, scoreCandidate]
  ring

/-- Membership through `insertDescBy`. -/
lemma mem_insertDescBy (key : α → ℚ) (x : α) :
    ∀ (l : List α) (a : α), a ∈ insertDescBy key x l ↔ a = x ∨ a ∈ l := by
  intro l
  induction l with
  | nil => intro a; simp [insertDescBy]
  | cons y ys ih =>
    intro a
    by_cases hc : key y ≤ key x
    · simp [insertDescBy, hc]
    · simp [insertDescBy, hc, ih a]
      tauto

/-- `sortDescBy` neither adds nor removes elements. -/
lemma mem_sortDescBy (key : α → ℚ) :
    ∀ (l : List α) (a : α), a ∈ sortDescBy key l ↔ a ∈ l := by
  intro l
  induction l with
  | nil => intro a; simp [sortDescBy]
  | cons y ys ih =>
    intro a
    simp [sortDescBy, mem_insertDescBy, ih a]

/-- Claim C1, refuted at a concrete input: with
`existingCategories = ["existing1"]` and the oracle responding
`["new1", "existing1"]`, `processSingleUser` merges the response verbatim —
the payload soft-category list becomes
`["existing1", "new1", "existing1"]`, so the term "existing1" that is
already in the existing set is merged (and duplicated) rather than filtered
out, and the merged list is not `["existing1", "new1"]`. -/
theorem C1_oracle_not_filtered_counterexample :
    processSingleUser true (some ["new1", "existing1"]) 0 user1 =
      .success "db1" ["new1", "existing1"] ["existing1", "new1", "existing1"]
        ["new1", "existing1"] 1 3 ∧
    (processSingleUser true (some ["new1", "existing1"]) 0 user1).mergedSoftCategories ≠
      ["existing1", "new1"] := by
  constructor
  · decide
  · decide

/-- Claim C1 as amended: candidate observations whose term is already in
the existing soft-category set are filtered out before selection, and every
term selected by the deterministic fallback scorer is disjoint from the
existing set; the oracle response, however, is passed through unfiltered
(so a response term already in the existing set is merged, as the
counterexample shows). -/
theorem C1_disjointness_amended (now : ℚ) (pc : List (String × CatData))
    (ex : List String) (k : Nat) :
    (∀ p ∈ pc.filter (fun q => !(ex.contains q.1)), p.1 ∉ ex) ∧
    (∀ t ∈ fallbackCategorySelection now pc ex k, t ∉ ex) ∧
    (∀ ts, analyzePotentialCategories true (some ts) now pc ex k = ts) := by
  refine ⟨?_, ?_, fun ts => rfl⟩
  · intro p hp
    have := (List.mem_filter.mp hp).2
    simp at this
    exact this
  · intro t ht
    simp only [fallbackCategorySelection, List.mem_map] at ht
    obtain ⟨s, hs, rfl⟩ := ht
    have hs2 : s ∈ sortDescBy ScoredTerm.totalScore _ := List.take_subset _ _ hs
    rw [mem_sortDescBy] at hs2
    rw [List.mem_filterMap] at hs2
    obtain ⟨p, hp, hf⟩ := hs2
    simp at hf
    obtain ⟨h1, rfl⟩ := hf
    exact h1

/-- Witness for C1 as amended: the pre-filter keeps the candidate "a",
which is indeed not among the existing categories `["b"]`. -/
theorem C1_disjointness_amended_witness :
    ("a", catD0) ∈ [("a", catD0)].filter (fun q => !((["b"] : List String).contains q.1)) ∧
      ("a", catD0).1 ∉ (["b"] : List String) :=
  ⟨by decide, (C1_disjointness_amended 0 [("a", catD0)] ["b"] 5).1 ("a", catD0) (by decide)⟩

/-- Claim C2: the deterministic fallback scorer equals the specification's
description — drop candidates already in the existing set, score each with
`0.5*count + 0.3*max(0, 100 - daysSince(lastSeen)) +
0.2*min(100, daysBetween(firstSeen, lastSeen)*2)`, sort descending by score
with ties in input order, return the top `maxTerms` terms — and on the
specification's example (A: count 10, firstSeen 10 days ago, lastSeen now;
B: count 3, firstSeen and lastSeen 3 days ago) candidate A ranks above B
even when B comes first in the input. -/
theorem C2_fallback_scorer_matches_spec (now : ℚ)
    (pc : List (String × CatData)) (existing : List String) (k : Nat) :
    fallbackCategorySelection now pc existing k =
      specFallbackSelection now pc existing k ∧
    fallbackCategorySelection (100 * msPerDay) [("B", candB), ("A", candA)] [] 5 =
      ["A", "B"] := by
  constructor
  · simp only [fallbackCategorySelection, specFallbackSelection]
    rw [filterMap_if_eq_map_filter]
    rw [show (fun p : String × CatData => (p.1, specTotalScore now p.2)) =
        (fun s : ScoredTerm => (s.term, s.totalScore)) ∘
          (fun p : String × CatData => scoreCandidate now p.1 p.2) from
      funext fun p => congrArg (Prod.mk p.1) (specTotalScore_eq now p.1 p.2)]
    rw [← List.map_map, sortDescBy_map (fun s : ScoredTerm => (s.term, s.totalScore))
      ScoredTerm.totalScore Prod.snd (fun _ => rfl)]
    rw [← List.map_take, List.map_map]
    rfl
  · norm_num [fallbackCategorySelection, scoreCandidate, msPerDay, sortDescBy,
      insertDescBy, candA, candB]

/-- Claim C3, refuted at a concrete input: with the AI client unavailable,
the daily agent returns at startup without processing its single user —
there is no per-resource result list at all, so the run does not process
every resource via the fallback scorer. -/
theorem C3_unavailable_oracle_counterexample :
    runDailySoftCategoryAgent false (fun _ => none) 0 [user1] = none ∧
      ¬∃ rs : List UserResult,
        runDailySoftCategoryAgent false (fun _ => none) 0 [user1] = some rs ∧
          rs.length = 1 := by
  refine ⟨rfl, ?_⟩
  rintro ⟨rs, h, -⟩
  simp [runDailySoftCategoryAgent] at h

/-- Claim C3 as amended: an oracle error during the run is never fatal —
the per-resource selection falls back to the deterministic scorer and the
agent still processes every resource in order; only oracle unavailability
at startup aborts the whole run before any resource is processed. -/
theorem C3_oracle_error_falls_back_amended (users : List UserDoc) (now : ℚ) :
    (runDailySoftCategoryAgent true (fun _ => none) now users).map List.length =
      some users.length ∧
    ∀ (pc : List (String × CatData)) (ex : List String) (k : Nat),
      analyzePotentialCategories true none now pc ex k =
        fallbackCategorySelection now pc ex k := by
  constructor
  · simp [runDailySoftCategoryAgent]
  · intro pc ex k
    rfl

/-- Claim C8, refuted at a concrete input: the payload
`{syncMode: ""}` has the field present, yet the merge keeps the stored
"full" instead of the payload value, because the JavaScript `||` chain
treats a present falsy value like an absent one. -/
theorem C8_present_falsy_counterexample :
    bodyEmptySync.syncMode = some "" ∧
      (mergeReOnboarding stored0 bodyEmptySync).syncMode = "full" ∧
      (mergeReOnboarding stored0 bodyEmptySync).syncMode ≠ "" := by
  refine ⟨rfl, ?_, ?_⟩ <;> decide

/-- Claim C8 as amended: the specification's scenario holds (stored
categories `["a","b"]` and syncMode "full" with payload
`{syncMode: "image"}` yield categories `["a","b"]` and syncMode "image"),
array-valued fields present in the payload always replace the stored array
(never merge, even when empty) and fall back to the stored array when
absent, a present string field overrides only when non-empty, an absent or
empty string falls back to the stored value and then the default, and
`explain` overrides whenever present. -/
theorem C8_reonboarding_merge_amended (stored : StoredConfig) (body : BodyData) :
    (mergeReOnboarding stored0 bodyImage).categories = ["a", "b"] ∧
    (mergeReOnboarding stored0 bodyImage).syncMode = "image" ∧
    (∀ l, body.categories = some l → (mergeReOnboarding stored body).categories = l) ∧
    (body.categories = none →
      (mergeReOnboarding stored body).categories = stored.categories.getD []) ∧
    (∀ l, body.softCategories = some l →
      (mergeReOnboarding stored body).softCategories = l) ∧
    (∀ l, body.typeList = some l → (mergeReOnboarding stored body).typeList = l) ∧
    (∀ s, body.syncMode = some s → s ≠ "" →
      (mergeReOnboarding stored body).syncMode = s) ∧
    (body.syncMode = none →
      (mergeReOnboarding stored body).syncMode = strOr stored.syncMode "full") ∧
    (∀ b, body.explain = some b → (mergeReOnboarding stored body).explain = some b) := by
  refine ⟨by decide, by decide, ?_, ?_, ?_, ?_, ?_, ?_, ?_⟩
  · intro l hl; simp [mergeReOnboarding, hl]
  · intro hl; simp [mergeReOnboarding, hl]
  · intro l hl; simp [mergeReOnboarding, hl]
  · intro l hl; simp [mergeReOnboarding, hl]
  · intro s hs hne; simp [mergeReOnboarding, strOr, hs, hne]
  · intro hs; simp [mergeReOnboarding, strOr, hs]
  · intro b hb; simp [mergeReOnboarding, hb]

/-- Witness for C8 as amended: a payload carrying an empty categories array
replaces the stored `["a", "b"]` with `[]` — present array fields override
even when empty. -/
theorem C8_reonboarding_merge_amended_witness :
    (BodyData.mk (some "image") (some []) none none none none).categories = some [] ∧
      (mergeReOnboarding stored0
        ⟨some "image", some [], none, none, none, none⟩).categories = [] :=
  ⟨rfl, (C8_reonboarding_merge_amended stored0
    ⟨some "image", some [], none, none, none, none⟩).2.2.1 [] rfl⟩

/-- Claim C9: the trial-start marker is set exactly once per identity —
a first onboarding with no stored record sets it to now, a second
onboarding of the result never resets it, and more generally any onboarding
of an identity whose record already has a completed onboarding preserves
the stored timestamp. -/
theorem C9_trial_marker_set_once (s : Option UserRecord) (n1 n2 : ℚ) :
    (applyOnboardingUpsert none n1).trialStartedAt = some n1 ∧
    (applyOnboardingUpsert (some (applyOnboardingUpsert s n1)) n2).trialStartedAt =
      (applyOnboardingUpsert s n1).trialStartedAt ∧
    ∀ u : UserRecord, u.onboardingComplete = true →
      (applyOnboardingUpsert (some u) n2).trialStartedAt = u.trialStartedAt := by
  refine ⟨rfl, rfl, ?_⟩
  intro u hu
  simp [applyOnboardingUpsert, hu]

/-- Witness for C9: a completed record with trial start 5 keeps it through
a re-onboarding at time 7. -/
theorem C9_trial_marker_set_once_witness :
    (UserRecord.mk true (some 5) (some "active") 0).onboardingComplete = true ∧
      (applyOnboardingUpsert (some ⟨true, some 5, some "active", 0⟩) 7).trialStartedAt =
        (UserRecord.mk true (some 5) (some "active") 0).trialStartedAt :=
  ⟨rfl, (C9_trial_marker_set_once none 0 7).2.2 ⟨true, some 5, some "active", 0⟩ rfl⟩

/-- Claim C10: in the API-key onboarding route, a first-time request with
no API key that passes every validation reaches the assignment to the
const-declared `apiKey` binding, which throws: the handler answers HTTP 500
and performs neither the user-configuration upsert nor any job-state
write. -/
theorem C10_missing_api_key_throws (req : OnbRequest)
    (h1 : req.hasApiKey = false) (h2 : req.dbNamePresent = true)
    (h3 : req.emailPresent = true) (h4 : req.platformValid = true)
    (h5 : req.credsValid = true) :
    (onboardingApiKeyHandler req).1 = 500 ∧
    OnbEffect.userUpsert ∉ (onboardingApiKeyHandler req).2 ∧
    ∀ s, OnbEffect.jobWrite s ∉ (onboardingApiKeyHandler req).2 := by
  simp [onboardingApiKeyHandler, h1, h2, h3, h4, h5]

/-- Witness for C10: the concrete keyless request with all validations
passing. -/
theorem C10_missing_api_key_throws_witness :
    (onboardingApiKeyHandler ⟨false, false, true, true, true, true, true⟩).1 = 500 ∧
      OnbEffect.userUpsert ∉
        (onboardingApiKeyHandler ⟨false, false, true, true, true, true, true⟩).2 ∧
      ∀ s, OnbEffect.jobWrite s ∉
        (onboardingApiKeyHandler ⟨false, false, true, true, true, true, true⟩).2 :=
  C10_missing_api_key_throws ⟨false, false, true, true, true, true, true⟩
    rfl rfl rfl rfl rfl

end Onboarding
